import Mathlib

/-!
# Verification of the document-processing service (`src/index.ts`)

Shallow embedding of the TypeScript source of the single-endpoint
document-processing service.  Uploaded file contents and byte buffers are
modelled as `String` (the service decodes buffers as UTF-8 text or hands
them to libraries); external effects (the two remote HTTP calls and the
filesystem writes) are modelled as an explicit effect trace; the remote
service's responses are parameters of the pipeline functions.
-/

namespace DocProc

/-! ## JavaScript / Node string and path primitives used by the source -/

/-- `String.prototype.toLowerCase()` restricted to the character-wise case
mapping (the filenames and extensions compared in the source are ASCII). -/
def jsToLower (s : String) : String := ⟨s.data.map Char.toLower⟩

/-- `String.prototype.endsWith(suffix)`. -/
def jsEndsWith (s suff : String) : Bool := suff.data.isSuffixOf s.data

/-- The basename step of Node's POSIX `path.extname`: trailing `/`
separators are skipped first, then the part after the last remaining `/`
is taken — the last non-empty component (`path.extname('report.xlsx/')`
is `'.xlsx'` in Node). -/
def basenameChars (l : List Char) : List Char :=
  ((l.reverse.dropWhile (fun c => c = '/')).takeWhile (fun c => c ≠ '/')).reverse

/-- Index of the last `.` in a character list, if any. -/
def lastDotIdxAux : List Char → Nat → Option Nat → Option Nat
  | [], _, acc => acc
  | c :: cs, i, acc => lastDotIdxAux cs (i + 1) (if c = '.' then some i else acc)

def lastDotIdx (l : List Char) : Option Nat := lastDotIdxAux l 0 none

/-- Node's POSIX `path.extname` on the basename: the substring from the last
`.` to the end, except that a name with no dot, a name whose only dot is its
first character (dotfiles such as `.csv`), and the special name `..` yield
the empty extension. -/
def extnameChars (l : List Char) : List Char :=
  let b := basenameChars l
  match lastDotIdx b with
  | none => []
  | some i => if i = 0 then [] else if b = ['.', '.'] then [] else b.drop i

/-- Node's `path.extname` (POSIX). -/
def extname (s : String) : String := ⟨extnameChars s.data⟩

/-- Node's `path.join` of two segments, modelled as slash-concatenation
(Node's normalisation of `./` prefixes is elided; the claims only concern
the name structure below the archive root). -/
def pathJoin (a b : String) : String := a ++ "/" ++ b

/-! ## Extension classifier and MIME mapper -/

/-- `['.xlsx', '.csv'].some(ext => req.file.originalname.toLowerCase().endsWith(ext))`
(the routing test of the `POST /process` handler, `index.ts:236-238`). -/
def isSpreadsheet (originalname : String) : Bool :=
  [".xlsx", ".csv"].any (fun ext => jsEndsWith (jsToLower originalname) ext)

/-- The fixed extension → MIME lookup table of `getMimeType` (`index.ts:73-79`). -/
def mimeTypes : List (String × String) :=
  [ (".pdf", "application/pdf"),
    (".docx", "application/vnd.openxmlformats-officedocument.wordprocessingml.document"),
    (".xlsx", "application/vnd.openxmlformats-officedocument.spreadsheetml.sheet"),
    (".txt", "text/plain"),
    (".csv", "text/csv") ]

/-- `getMimeType` (`index.ts:71-81`): look up the lower-cased `path.extname`
of the filename in the fixed table, defaulting to `application/octet-stream`
(`mimeTypes[ext] || 'application/octet-stream'`). -/
def getMimeType (filename : String) : String :=
  (mimeTypes.lookup (jsToLower (extname filename))).getD "application/octet-stream"

/-! ## CSV flattening (`processCSV`, `index.ts:113-135`)

The source feeds the UTF-8 decoded buffer to the PapaParse library with
`skipEmptyLines: true` and no explicit delimiter, then tab-joins the
surviving rows.  The library is modelled here for quote-free single-`\n`
input, which covers every input the claims mention: rows are the
newline-separated lines, fields the delimiter-separated pieces of a line
(PapaParse performs no field trimming), `skipEmptyLines: true` removes rows
whose single field is empty, and the delimiter is chosen by the library's
guessing heuristic (per candidate delimiter: parse a 10-row preview, skip
empty lines, require an average field count above 1.9, prefer lower
field-count variation then higher average, candidates tried in order). -/

/-- Split a character list on a separator; always returns at least one
(possibly empty) segment. -/
def splitOnChar (sep : Char) : List Char → List (List Char)
  | [] => [[]]
  | c :: rest =>
    let r := splitOnChar sep rest
    if c = sep then [] :: r
    else
      match r with
      | [] => [[c]]
      | seg :: segs => (c :: seg) :: segs

/-- Rows produced by the CSV parser for a given delimiter: lines split on
`\n`, each line split on the delimiter. -/
def papaRows (delim : Char) (content : String) : List (List String) :=
  (splitOnChar '\n' content.data).map
    (fun line => (splitOnChar delim line).map (fun cs => String.mk cs))

/-- PapaParse's `testEmptyLine` with `skipEmptyLines: true`: a row is empty
when it is a single empty field. -/
def testEmptyLine (row : List String) : Bool := row = [""]

/-- The candidate delimiters of PapaParse's guesser, in the order tried:
comma, tab, pipe, semicolon, record separator, unit separator. -/
def delimitersToGuess : List Char := [',', '\t', '|', ';', '\x1e', '\x1f']

/-- Sum of absolute differences between successive field counts
(PapaParse's `delta` accumulator). -/
def fieldCountDelta : Nat → List Nat → Nat
  | _, [] => 0
  | prev, c :: cs => (max prev c - min prev c) + fieldCountDelta c cs

/-- Field-count statistics of a 10-row preview parsed with a candidate
delimiter: the `delta`, the total field count over non-empty rows and the
number of non-empty rows.  The average field count of PapaParse's guesser is
the quotient `sum / count`; it is kept unevaluated here and the guesser's
comparisons on averages are rendered by exact cross-multiplication. -/
def delimStats (delim : Char) (content : String) : Nat × Nat × Nat :=
  let preview := (papaRows delim content).take 10
  let rows := preview.filter (fun r => ¬ testEmptyLine r)
  let counts := rows.map List.length
  let delta :=
    match counts with
    | [] => 0
    | c :: cs => fieldCountDelta c cs
  (delta, counts.sum, rows.length)

/-- PapaParse's `guessDelimiter`: try candidates in order, accept one when
its delta does not exceed the best delta so far, its average field count
strictly exceeds the best average so far, and the average exceeds 1.9
(`sum / count > 19 / 10` iff `10 * sum > 19 * count`); fall back to the
default delimiter `,` when no candidate qualifies. -/
def guessDelimiter (content : String) : Char :=
  let best := delimitersToGuess.foldl
    (fun (best : Option (Char × Nat × Nat × Nat)) d =>
      let s := delimStats d content
      let delta := s.1
      let sum := s.2.1
      let count := s.2.2
      let accept :=
        (match best with
         | none => true
         | some (_, bestDelta, bestSum, bestCount) =>
             decide (delta ≤ bestDelta) && decide (bestSum * count < sum * bestCount))
        && decide (19 * count < 10 * sum)
      if accept then some (d, s) else best)
    none
  match best with
  | some (d, _) => d
  | none => ','

/-- `processCSV` (`index.ts:113-135`): parse with the guessed delimiter and
`skipEmptyLines: true`, keep rows with at least one field
(`filter(row => row.length > 0)`), tab-join each row's cells
(`row.join('\t')`), newline-join the rows (`.join('\n')`). -/
def processCSV (content : String) : String :=
  let delim := guessDelimiter content
  let data := (papaRows delim content).filter (fun r => ¬ testEmptyLine r)
  String.intercalate "\n"
    ((data.filter (fun row => row.length > 0)).map
      (fun row => String.intercalate "\t" row))

/-! ## XLSX flattening (`processXLSX`, `index.ts:83-111`)

`read(buffer)` and `utils.sheet_to_json(sheet, { header: 1 })` belong to the
SheetJS library; the flattener is modelled on the decoded workbook: an
ordered list of named sheets, each a list of rows.  Per the source's
`SheetRow` type a row is either an ordered array of cells or a key/value
object; cells are carried in their JavaScript string form (what
`row.join('\t')` stringifies them to). -/

/-- `type SheetRow = string[] | { [key: string]: any }` (`index.ts:21`). -/
inductive SheetRow where
  | arrayRow (cells : List String)
  | objectRow (pairs : List (String × String))
deriving DecidableEq, Repr

/-- Decoded workbook: `SheetNames` in order, each paired with the rows
`sheet_to_json` yields for `Sheets[name]`. -/
structure Workbook where
  sheets : List (String × List SheetRow)
deriving DecidableEq, Repr

/-- JavaScript `Array.isArray(row) && row.length > 0`. -/
def SheetRow.isNonemptyArray : SheetRow → Bool
  | .arrayRow cells => cells.length > 0
  | .objectRow _ => false

/-- JavaScript `Object.values(row)`: the elements of an array, the values of
an object in enumeration order. -/
def SheetRow.objectValues : SheetRow → List String
  | .arrayRow cells => cells
  | .objectRow pairs => pairs.map Prod.snd

/-- The per-row dispatch of `processXLSX` (`index.ts:96-102`): a non-empty
array row is tab-joined; every other row — including the empty array, which
is an object and not `null` in JavaScript, so it satisfies the `else if` —
has its `Object.values` tab-joined.  Each branch appends `'\n'`. -/
def emitRow (row : SheetRow) : String :=
  if row.isNonemptyArray then String.intercalate "\t" row.objectValues ++ "\n"
  else String.intercalate "\t" row.objectValues ++ "\n"

/-- Concatenation of the strings appended to `result` by the `forEach`
loops. -/
def concatStrings : List String → String
  | [] => ""
  | s :: rest => s ++ concatStrings rest

/-- The text a single sheet's rows contribute. -/
def sheetText (rows : List SheetRow) : String := concatStrings (rows.map emitRow)

/-- `processXLSX` on the decoded workbook (`index.ts:88-106`): for each
sheet in order, a `Sheet: <name>` header when the workbook has more than
one sheet, then the rows, then a blank separator line. -/
def processXLSX (wb : Workbook) : String :=
  concatStrings (wb.sheets.map (fun s =>
    (if wb.sheets.length > 1 then "Sheet: " ++ s.1 ++ "\n" else "")
      ++ sheetText s.2 ++ "\n"))

/-- `processXLSX` from the raw buffer: `read(buffer)` is the SheetJS
decoder, passed in as a function returning `none` on malformed input, in
which case the `catch` block rethrows `'Failed to process XLSX file'`
(`index.ts:107-110`). -/
def processXLSXBuffer (decode : String → Option Workbook) (buffer : String) :
    Except String String :=
  match decode buffer with
  | some wb => .ok (processXLSX wb)
  | none => .error "Failed to process XLSX file"

/-! ## Remote calls, persistence and the request pipeline

The two Tika calls and every filesystem mutation are recorded in an effect
trace; the remote service's two responses are the `RemoteEnv` parameter.
`new Date()` is modelled by passing the current time's ISO string `iso`. -/

/-- A `node-fetch` response as the source consumes it: `ok`, `statusText`
and the body (`text()` for the content call, the JSON body for the
metadata call, kept as a string). -/
structure FetchResponse where
  ok : Bool
  statusText : String
  body : String
deriving DecidableEq, Repr

/-- The remote document-analysis server's responses to the two calls. -/
structure RemoteEnv where
  tika : FetchResponse
  meta : FetchResponse
deriving DecidableEq, Repr

/-- The result record built by both pipelines (`index.ts:9-15`). -/
structure ProcessedDocument where
  content : String
  metadata : String
  filename : String
  mimeType : String
  processingDate : String
deriving DecidableEq, Repr

/-- The record serialised into the archive JSON file (`index.ts:51-57`);
`JSON.stringify` is elided, the write effect carries the record itself. -/
structure OutputData where
  content : String
  metadata : String
  originalFilename : String
  mimeType : String
  processingDate : String
deriving DecidableEq, Repr

/-- One observable external effect of a request: a remote call, a file
write, a directory creation, a file copy or a deletion. -/
inductive Effect where
  | fetchTika (mimeType : String)
  | fetchMeta (mimeType : String)
  | writeFile (path : String) (data : OutputData)
  | mkdir (path : String)
  | copyFile (src dst : String)
  | unlink (path : String)
deriving DecidableEq, Repr

/-- `new Date().toISOString().replace(/[:.]/g, '-')` (`index.ts:46`). -/
def sanitizeTimestamp (iso : String) : String :=
  ⟨iso.data.map (fun c => if c = ':' || c = '.' then '-' else c)⟩

/-- `saveProcessedDocument` (`index.ts:45-69`): write
`<completedDir>/<timestamp>_<filename>.json`, make the `originals`
directory, copy the original upload to
`<completedDir>/originals/<timestamp>_<filename>`. -/
def saveProcessedDocument (completedDir : String) (result : ProcessedDocument)
    (originalPath : String) (iso : String) : List Effect :=
  let timestamp := sanitizeTimestamp iso
  let outputFilename := timestamp ++ "_" ++ result.filename
  let outputPath := pathJoin completedDir outputFilename
  let outputOriginalPath := pathJoin (pathJoin completedDir "originals") outputFilename
  [ Effect.writeFile (outputPath ++ ".json")
      ⟨result.content, result.metadata, result.filename, result.mimeType,
        result.processingDate⟩,
    Effect.mkdir (pathJoin completedDir "originals"),
    Effect.copyFile originalPath outputOriginalPath ]

/-- `getMetadata` (`index.ts:201-217`): `PUT <base>/meta`; a non-`ok`
response throws `'Failed to get metadata: ' + statusText`, otherwise the
JSON body is returned. -/
def getMetadata (env : RemoteEnv) (mimeType : String) :
    List Effect × Except String String :=
  ([Effect.fetchMeta mimeType],
   if env.meta.ok then Except.ok env.meta.body
   else Except.error ("Failed to get metadata: " ++ env.meta.statusText))

/-- `processDocument` (`index.ts:137-166`): `PUT <base>/tika` (a non-`ok`
response throws `'Failed to extract text: ' + statusText`), then the
metadata call, then persistence. -/
def processDocument (env : RemoteEnv) (completedDir : String) (filename : String)
    (originalPath : String) (iso : String) :
    List Effect × Except String ProcessedDocument :=
  let mimeType := getMimeType filename
  let tikaEffects := [Effect.fetchTika mimeType]
  if env.tika.ok then
    let content := env.tika.body
    let m := getMetadata env mimeType
    match m.2 with
    | .error e => (tikaEffects ++ m.1, .error e)
    | .ok metadata =>
      let result : ProcessedDocument := ⟨content, metadata, filename, mimeType, iso⟩
      (tikaEffects ++ m.1 ++ saveProcessedDocument completedDir result originalPath iso,
       .ok result)
  else
    (tikaEffects, .error ("Failed to extract text: " ++ env.tika.statusText))

/-- `processSpreadsheet` (`index.ts:168-199`): flatten locally by the
lower-cased `path.extname` (`.xlsx` via the workbook decoder, `.csv` via
the CSV parser, anything else throws `'Unsupported spreadsheet format'`),
then the metadata call, then persistence. -/
def processSpreadsheet (env : RemoteEnv) (decode : String → Option Workbook)
    (completedDir : String) (file : String) (filename : String)
    (originalPath : String) (iso : String) :
    List Effect × Except String ProcessedDocument :=
  let mimeType := getMimeType filename
  let ext := jsToLower (extname filename)
  let contentRes : Except String String :=
    if ext = ".xlsx" then processXLSXBuffer decode file
    else if ext = ".csv" then .ok (processCSV file)
    else .error "Unsupported spreadsheet format"
  match contentRes with
  | .error e => ([], .error e)
  | .ok content =>
    let m := getMetadata env mimeType
    match m.2 with
    | .error e => (m.1, .error e)
    | .ok metadata =>
      let result : ProcessedDocument := ⟨content, metadata, filename, mimeType, iso⟩
      (m.1 ++ saveProcessedDocument completedDir result originalPath iso, .ok result)

/-- The multipart upload as the handler sees it: `originalname`, the
temporary `path` multer wrote, and the bytes `fs.readFile` returns. -/
structure Upload where
  originalname : String
  path : String
  content : String
deriving DecidableEq, Repr

/-- The JSON body of a response: the processed document on success, an
`{error, details?}` object otherwise. -/
inductive ResponseBody where
  | json (doc : ProcessedDocument)
  | errorJson (error : String) (details : Option String)
deriving DecidableEq, Repr

structure HttpResponse where
  status : Nat
  body : ResponseBody
deriving DecidableEq, Repr

/-- The `POST /process` handler (`index.ts:229-253`): 400 when no file
field is present; otherwise route by `isSpreadsheet`, unlink the temporary
upload and answer 200 on success, answer
`500 {error: 'Failed to process document', details: <message>}` when any
pipeline step threw (the unlink is skipped on that path). -/
def handler (env : RemoteEnv) (decode : String → Option Workbook)
    (completedDir : String) (file : Option Upload) (iso : String) :
    HttpResponse × List Effect :=
  match file with
  | none => (⟨400, .errorJson "No file uploaded" none⟩, [])
  | some up =>
    let r :=
      if isSpreadsheet up.originalname then
        processSpreadsheet env decode completedDir up.content up.originalname up.path iso
      else
        processDocument env completedDir up.originalname up.path iso
    match r.2 with
    | .ok result => (⟨200, .json result⟩, r.1 ++ [Effect.unlink up.path])
    | .error e => (⟨500, .errorJson "Failed to process document" (some e)⟩, r.1)

/-! ## Helper lemmas -/

/-- A character list without `/` loses nothing to `dropWhile (· = '/')`. -/
theorem dropWhile_slash_eq_self {l : List Char} (h : '/' ∉ l) :
    l.dropWhile (fun c => c = '/') = l := by
  cases l with
  | nil => rfl
  | cons c cs =>
    have hc : ¬ (c = '/') := fun hc => h (by simp [hc])
    simp [List.dropWhile_cons, hc]

/-- A character list without `/` is kept whole by `takeWhile (· ≠ '/')`. -/
theorem takeWhile_ne_slash_eq_self {l : List Char} (h : '/' ∉ l) :
    l.takeWhile (fun c => c ≠ '/') = l := by
  have hall : ∀ x ∈ l, ¬ x = '/' := fun x hx hxe => h (hxe ▸ hx)
  simpa using hall

/-- A filename containing no path separator is its own basename. -/
theorem basenameChars_of_no_slash {l : List Char} (h : '/' ∉ l) :
    basenameChars l = l := by
  have h' : '/' ∉ l.reverse := by simpa using h
  unfold basenameChars
  rw [dropWhile_slash_eq_self h', takeWhile_ne_slash_eq_self h', List.reverse_reverse]

/-- For a filename containing no path separator, the extension computed by
`extname` is a suffix of its character list.  (Not true of paths with a
trailing separator: `extname "report.xlsx/"` is `".xlsx"`, which is not a
suffix of the path.) -/
theorem extnameChars_suffix_of_no_slash {l : List Char} (h : '/' ∉ l) :
    extnameChars l <:+ l := by
  simp only [extnameChars, basenameChars_of_no_slash h]
  split
  · exact List.nil_suffix
  · split
    · exact List.nil_suffix
    · split
      · exact List.nil_suffix
      · exact List.drop_suffix _ _

/-- A slash-free filename whose lower-cased `extname` is `ext` ends with
`ext` after lower-casing. -/
theorem jsEndsWith_of_extname (f ext : String) (hno : '/' ∉ f.data)
    (h : jsToLower (extname f) = ext) : jsEndsWith (jsToLower f) ext = true := by
  have hsuffix : (extname f).data.map Char.toLower <:+ f.data.map Char.toLower :=
    List.IsSuffix.map _ (extnameChars_suffix_of_no_slash hno)
  have hdata : ext.data = (extname f).data.map Char.toLower := by
    rw [← h]; rfl
  simp only [jsEndsWith, jsToLower, List.isSuffixOf_iff_suffix]
  rw [hdata]
  exact hsuffix

/-- A nonempty list of strings each ending in `"\n"` concatenates to a
string ending in `"\n"`. -/
theorem concatStrings_endsWith_newline :
    ∀ l : List String, l ≠ [] → (∀ s ∈ l, ∃ t, s = t ++ "\n") →
      ∃ t, concatStrings l = t ++ "\n"
  | [], h, _ => absurd rfl h
  | [s], _, hall => by
    obtain ⟨t, ht⟩ := hall s (by simp)
    exact ⟨t, by simp [concatStrings, ht]⟩
  | s :: s' :: rest, _, hall => by
    obtain ⟨t, ht⟩ := concatStrings_endsWith_newline (s' :: rest) (by simp)
      (fun x hx => hall x (by simp [hx]))
    have ht' : s' ++ concatStrings rest = t ++ "\n" := ht
    exact ⟨s ++ t, by simp [concatStrings, ht', String.append_assoc]⟩

/-- `Effect` predicates used to count archive-file creations. -/
def Effect.isWriteFile : Effect → Bool
  | .writeFile _ _ => true
  | _ => false

def Effect.isCopyFile : Effect → Bool
  | .copyFile _ _ => true
  | _ => false

/-- An effect that creates a file in the archive (the JSON entry or the
original-file copy). -/
def Effect.isFileCreation (e : Effect) : Bool := e.isWriteFile || e.isCopyFile

/-! ## Claims -/

/-- C1 (counterexample): the claimed equivalence "routed to the spreadsheet
path iff the filename's extension is `.xlsx` or `.csv` (case-insensitive)"
fails in both directions: at the filename `".csv"` the handler's suffix
test routes to the spreadsheet path although Node's `path.extname` of a
lone dotfile is empty, and at `"report.xlsx/"` Node's `path.extname`
(which skips trailing separators) is `".xlsx"` although the suffix test
fails and the file is routed to the document path. -/
theorem routing_iff_extension_counterexample :
    ¬ (isSpreadsheet ".csv" = true ↔
        jsToLower (extname ".csv") ∈ ([".xlsx", ".csv"] : List String))
    ∧ ¬ (isSpreadsheet "report.xlsx/" = true ↔
        jsToLower (extname "report.xlsx/") ∈ ([".xlsx", ".csv"] : List String)) := by
  constructor
  · decide
  · decide

/-- C1 (amended): routing to the spreadsheet path is by *suffix* of the
lower-cased filename, which diverges from the extension test in both
directions: a filename containing no path separator whose lower-cased
`extname` is `.xlsx` or `.csv` is always routed to the spreadsheet path,
but so are dotfiles such as `".csv"` whose `extname` is empty, while a
trailing-separator name such as `"report.xlsx/"` has `extname` `.xlsx`
yet fails the suffix test and takes the document path; any filename
routed to the spreadsheet path whose lower-cased `extname` is neither
`.xlsx` nor `.csv` fails with the unsupported-format error before any
remote call or write; a filename failing the suffix test takes the
document path, whose first effect is the remote text-extraction call. -/
theorem routing_by_suffix_and_unsupported_format :
    (∀ f : String, '/' ∉ f.data →
      jsToLower (extname f) ∈ ([".xlsx", ".csv"] : List String) →
      isSpreadsheet f = true)
    ∧ (isSpreadsheet "report.xlsx/" = false
        ∧ jsToLower (extname "report.xlsx/") = ".xlsx")
    ∧ (∀ env decode completedDir file f originalPath iso,
        isSpreadsheet f = true →
        jsToLower (extname f) ∉ ([".xlsx", ".csv"] : List String) →
        processSpreadsheet env decode completedDir file f originalPath iso =
          ([], Except.error "Unsupported spreadsheet format"))
    ∧ (∀ env decode completedDir (up : Upload) iso,
        isSpreadsheet up.originalname = false →
        (handler env decode completedDir (some up) iso).2.head? =
          some (Effect.fetchTika (getMimeType up.originalname))) := by
  refine ⟨?_, ⟨by decide, by decide⟩, ?_, ?_⟩
  · intro f hno h
    simp only [List.mem_cons, List.mem_singleton, List.not_mem_nil, or_false] at h
    rcases h with h | h <;>
      simp [isSpreadsheet, jsEndsWith_of_extname f _ hno h]
  · intro env decode completedDir file f originalPath iso _ h
    simp only [List.mem_cons, List.mem_singleton, List.not_mem_nil, or_false,
      not_or] at h
    simp [processSpreadsheet, h.1, h.2]
  · intro env decode completedDir up iso h
    by_cases htika : env.tika.ok
    · by_cases hmeta : env.meta.ok <;>
        simp [handler, h, processDocument, getMetadata, htika, hmeta]
    · simp [handler, h, processDocument, htika]

/-- C1 (witness): concrete instances of the amended claim: `report.XLSX`
has extension `.xlsx` and is routed to the spreadsheet path; the dotfile
`".csv"` is routed to the spreadsheet path and fails with the
unsupported-format error. -/
theorem routing_by_suffix_witness :
    isSpreadsheet "report.XLSX" = true
    ∧ processSpreadsheet ⟨⟨true, "OK", "text"⟩, ⟨true, "OK", "meta"⟩⟩
        (fun _ => none) "./completed" "bytes" ".csv" "/tmp/upload" "iso" =
        ([], Except.error "Unsupported spreadsheet format") :=
  ⟨routing_by_suffix_and_unsupported_format.1 "report.XLSX" (by decide) (by decide),
   routing_by_suffix_and_unsupported_format.2.2.1 _ _ _ _ ".csv" _ _
     (by decide) (by decide)⟩

/-- C2 (counterexample): the CSV input `"a,b\n\n c,d"` does *not* flatten
to `"a\tb\nc\td"`: the parser preserves the leading space of the field
`" c"` (PapaParse does not trim fields). -/
theorem csv_example_counterexample :
    processCSV "a,b\n\n c,d" ≠ "a\tb\nc\td" := by
  decide

/-- C2 (amended): the CSV input `"a,b\n\n c,d"` flattens to
`"a\tb\n c\td"`: the blank row is dropped and the non-blank rows are
tab-joined in original order, with the leading space of `" c"` kept. -/
theorem csv_example_flattening :
    processCSV "a,b\n\n c,d" = "a\tb\n c\td" := by
  decide

/-- C4 (counterexample): a row that is an empty array is *not* skipped by
the XLSX flattener: in JavaScript `[]` fails `Array.isArray(row) &&
row.length > 0` but satisfies `typeof row === 'object' && row !== null`,
so the object branch appends `Object.values([]).join('\t') + '\n'`, a bare
newline. -/
theorem xlsx_empty_row_counterexample :
    ¬ (emitRow (SheetRow.arrayRow []) = "")
    ∧ processXLSX ⟨[("Sheet1", [SheetRow.arrayRow []])]⟩ = "\n\n" := by
  constructor
  · decide
  · decide

/-- C4 (amended): a non-empty array row is emitted as its cells joined
with tabs, a key/value row as its values joined with tabs in enumeration
order, and an empty array row is not skipped: it falls into the object
branch and emits a bare newline. -/
theorem xlsx_row_emission :
    (∀ cells : List String, cells ≠ [] →
      emitRow (SheetRow.arrayRow cells) = String.intercalate "\t" cells ++ "\n")
    ∧ (∀ pairs : List (String × String),
        emitRow (SheetRow.objectRow pairs) =
          String.intercalate "\t" (pairs.map Prod.snd) ++ "\n")
    ∧ emitRow (SheetRow.arrayRow []) = "\n" := by
  refine ⟨?_, ?_, by decide⟩
  · intro cells _
    simp [emitRow, SheetRow.objectValues]
  · intro pairs
    simp [emitRow, SheetRow.isNonemptyArray, SheetRow.objectValues]

/-- C4 (witness): the amended row-emission rules at concrete rows. -/
theorem xlsx_row_emission_witness :
    emitRow (SheetRow.arrayRow ["a", "b"]) = "a\tb\n" := by
  rw [xlsx_row_emission.1 ["a", "b"] (by decide)]
  decide

/-- C8: a `POST /process` request without a `file` field is answered with
status 400 and body `{"error": "No file uploaded"}`, and nothing else
happens: no remote call, no filesystem effect. -/
theorem no_file_uploaded_400 :
    ∀ env decode completedDir iso,
      handler env decode completedDir none iso =
        (⟨400, ResponseBody.errorJson "No file uploaded" none⟩, []) := by
  intro env decode completedDir iso
  rfl

/-- C10: the two local flatteners are deterministic: equal input buffers
produce equal output (the embedded functions consult nothing besides the
buffer and, for XLSX, the fixed decoder). -/
theorem flatteners_deterministic :
    (∀ (decode : String → Option Workbook) (b₁ b₂ : String), b₁ = b₂ →
      processXLSXBuffer decode b₁ = processXLSXBuffer decode b₂)
    ∧ (∀ s₁ s₂ : String, s₁ = s₂ → processCSV s₁ = processCSV s₂) := by
  constructor
  · intro decode b₁ b₂ h
    rw [h]
  · intro s₁ s₂ h
    rw [h]

/-- C10 (witness): determinism at a concrete buffer. -/
theorem flatteners_deterministic_witness :
    processCSV "a,b" = processCSV "a,b"
    ∧ processXLSXBuffer (fun _ => none) "x" = processXLSXBuffer (fun _ => none) "x" :=
  ⟨flatteners_deterministic.2 "a,b" "a,b" rfl,
   flatteners_deterministic.1 (fun _ => none) "x" "x" rfl⟩

/-- C3: a workbook with more than one sheet emits a `Sheet: <name>` header
before each sheet's rows, in workbook order — in particular for sheets
`A`, `B` the `Sheet: A` block precedes the `Sheet: B` block — while a
single-sheet workbook emits no header. -/
theorem sheet_headers :
    (∀ wb : Workbook, 1 < wb.sheets.length →
      processXLSX wb = concatStrings (wb.sheets.map (fun s =>
        ("Sheet: " ++ s.1 ++ "\n") ++ sheetText s.2 ++ "\n")))
    ∧ (∀ rowsA rowsB : List SheetRow,
        processXLSX ⟨[("A", rowsA), ("B", rowsB)]⟩ =
          ("Sheet: A\n" ++ sheetText rowsA ++ "\n")
            ++ ("Sheet: B\n" ++ sheetText rowsB ++ "\n"))
    ∧ (∀ (name : String) (rows : List SheetRow),
        processXLSX ⟨[(name, rows)]⟩ = sheetText rows ++ "\n") := by
  refine ⟨?_, ?_, ?_⟩
  · intro wb h
    simp [processXLSX, h]
  · intro rowsA rowsB
    apply String.ext
    simp [processXLSX, concatStrings]
  · intro name rows
    simp [processXLSX, concatStrings]

/-- C3 (witness): the multi-sheet header layout at a concrete two-sheet
workbook, and the header-free layout at a concrete single-sheet workbook. -/
theorem sheet_headers_witness :
    processXLSX ⟨[("A", [SheetRow.arrayRow ["x"]]), ("B", [])]⟩ =
      "Sheet: A\nx\n\nSheet: B\n\n"
    ∧ processXLSX ⟨[("Only", [SheetRow.arrayRow ["x"]])]⟩ = "x\n\n" := by
  constructor
  · rw [sheet_headers.2.1 [SheetRow.arrayRow ["x"]] []]
    decide
  · rw [sheet_headers.2.2 "Only" [SheetRow.arrayRow ["x"]]]
    decide

/-- C9: for every decoded workbook with at least one sheet the flattened
text ends with a newline: each sheet's block — the last one included —
is terminated by the blank-line separator. -/
theorem xlsx_output_trailing_newline (wb : Workbook) (h : wb.sheets ≠ []) :
    ∃ t, processXLSX wb = t ++ "\n" := by
  unfold processXLSX
  apply concatStrings_endsWith_newline
  · simpa using h
  · intro s hs
    obtain ⟨x, _, hx⟩ := List.mem_map.1 hs
    exact ⟨_, hx.symm⟩

/-- C9 (witness): the trailing newline at a concrete workbook. -/
theorem xlsx_output_trailing_newline_witness :
    ∃ t, processXLSX ⟨[("S", [SheetRow.arrayRow ["a"]])]⟩ = t ++ "\n" :=
  xlsx_output_trailing_newline ⟨[("S", [SheetRow.arrayRow ["a"]])]⟩ (by decide)

/-- C6: `getMimeType` returns the fixed table value for the five known
extensions, matched case-insensitively on `path.extname`, and
`application/octet-stream` for every other extension. -/
theorem mime_type_table (f : String) :
    (jsToLower (extname f) = ".pdf" → getMimeType f = "application/pdf")
    ∧ (jsToLower (extname f) = ".docx" →
        getMimeType f =
          "application/vnd.openxmlformats-officedocument.wordprocessingml.document")
    ∧ (jsToLower (extname f) = ".xlsx" →
        getMimeType f =
          "application/vnd.openxmlformats-officedocument.spreadsheetml.sheet")
    ∧ (jsToLower (extname f) = ".txt" → getMimeType f = "text/plain")
    ∧ (jsToLower (extname f) = ".csv" → getMimeType f = "text/csv")
    ∧ (jsToLower (extname f) ∉
        ([".pdf", ".docx", ".xlsx", ".txt", ".csv"] : List String) →
        getMimeType f = "application/octet-stream") := by
  refine ⟨?_, ?_, ?_, ?_, ?_, ?_⟩ <;> intro h
  · simp only [getMimeType, h]; decide
  · simp only [getMimeType, h]; decide
  · simp only [getMimeType, h]; decide
  · simp only [getMimeType, h]; decide
  · simp only [getMimeType, h]; decide
  · simp only [List.mem_cons, List.mem_singleton, List.not_mem_nil, or_false,
      not_or] at h
    obtain ⟨h1, h2, h3, h4, h5⟩ := h
    have b1 := beq_eq_false_iff_ne.mpr h1
    have b2 := beq_eq_false_iff_ne.mpr h2
    have b3 := beq_eq_false_iff_ne.mpr h3
    have b4 := beq_eq_false_iff_ne.mpr h4
    have b5 := beq_eq_false_iff_ne.mpr h5
    simp [getMimeType, mimeTypes, List.lookup, b1, b2, b3, b4, b5]

/-- C6 (witness): the table at `report.PDF` (case-insensitive match) and
the default at an unrecognised extension. -/
theorem mime_type_table_witness :
    getMimeType "report.PDF" = "application/pdf"
    ∧ getMimeType "archive.tar.gz" = "application/octet-stream" :=
  ⟨(mime_type_table "report.PDF").1 (by decide),
   (mime_type_table "archive.tar.gz").2.2.2.2.2 (by decide)⟩

/-- C7: a save writes exactly one JSON file named
`<timestamp>_<filename>.json` in the archive root and exactly one copy of
the original at `originals/<timestamp>_<filename>`, both using the same
single timestamp — the current time's ISO string with every `:` and `.`
replaced by `-` (so the timestamp itself contains neither character). -/
theorem save_archive_layout (completedDir : String) (result : ProcessedDocument)
    (originalPath iso : String) :
    saveProcessedDocument completedDir result originalPath iso =
      [ Effect.writeFile
          (pathJoin completedDir (sanitizeTimestamp iso ++ "_" ++ result.filename)
            ++ ".json")
          ⟨result.content, result.metadata, result.filename, result.mimeType,
            result.processingDate⟩,
        Effect.mkdir (pathJoin completedDir "originals"),
        Effect.copyFile originalPath
          (pathJoin (pathJoin completedDir "originals")
            (sanitizeTimestamp iso ++ "_" ++ result.filename)) ]
    ∧ ((saveProcessedDocument completedDir result originalPath iso).filter
        Effect.isWriteFile).length = 1
    ∧ ((saveProcessedDocument completedDir result originalPath iso).filter
        Effect.isCopyFile).length = 1
    ∧ ':' ∉ (sanitizeTimestamp iso).data
    ∧ '.' ∉ (sanitizeTimestamp iso).data := by
  refine ⟨rfl, rfl, rfl, ?_, ?_⟩
  · intro h
    obtain ⟨c, -, hc⟩ := List.mem_map.1 h
    by_cases hcase : (c = ':' || c = '.') = true
    · rw [if_pos hcase] at hc
      exact absurd hc (by decide)
    · rw [if_neg hcase] at hc
      simp [hc] at hcase
  · intro h
    obtain ⟨c, -, hc⟩ := List.mem_map.1 h
    by_cases hcase : (c = ':' || c = '.') = true
    · rw [if_pos hcase] at hc
      exact absurd hc (by decide)
    · rw [if_neg hcase] at hc
      simp [hc] at hcase

/-- C7 (witness): the archive layout of a concrete save. -/
theorem save_archive_layout_witness :
    saveProcessedDocument "./completed" ⟨"text", "meta", "f.pdf", "application/pdf",
        "2026-10-11T12:34:56.789Z"⟩ "/tmp/upload" "2026-10-11T12:34:56.789Z" =
      [ Effect.writeFile "./completed/2026-10-11T12-34-56-789Z_f.pdf.json"
          ⟨"text", "meta", "f.pdf", "application/pdf", "2026-10-11T12:34:56.789Z"⟩,
        Effect.mkdir "./completed/originals",
        Effect.copyFile "/tmp/upload"
          "./completed/originals/2026-10-11T12-34-56-789Z_f.pdf" ] := by
  rw [(save_archive_layout "./completed"
    ⟨"text", "meta", "f.pdf", "application/pdf", "2026-10-11T12:34:56.789Z"⟩
    "/tmp/upload" "2026-10-11T12:34:56.789Z").1]
  decide

/-- C5: when the remote metadata call answers non-`ok` (the text-extraction
call having succeeded), the request fails with HTTP 500, the `details`
field carries `Failed to get metadata: <remote status text>`, and no
archive file is created — the effect trace holds the two remote calls and
nothing else. -/
theorem metadata_failure_500_no_archive (env : RemoteEnv)
    (decode : String → Option Workbook) (completedDir : String) (up : Upload)
    (iso : String) (hroute : isSpreadsheet up.originalname = false)
    (htika : env.tika.ok = true) (hmeta : env.meta.ok = false) :
    handler env decode completedDir (some up) iso =
      (⟨500, ResponseBody.errorJson "Failed to process document"
          (some ("Failed to get metadata: " ++ env.meta.statusText))⟩,
       [Effect.fetchTika (getMimeType up.originalname),
        Effect.fetchMeta (getMimeType up.originalname)])
    ∧ ((handler env decode completedDir (some up) iso).2.filter
        Effect.isFileCreation) = [] := by
  have h1 : handler env decode completedDir (some up) iso =
      (⟨500, ResponseBody.errorJson "Failed to process document"
          (some ("Failed to get metadata: " ++ env.meta.statusText))⟩,
       [Effect.fetchTika (getMimeType up.originalname),
        Effect.fetchMeta (getMimeType up.originalname)]) := by
    simp [handler, hroute, processDocument, getMetadata, htika, hmeta]
  exact ⟨h1, by rw [h1]; rfl⟩

/-- C5 (witness): the metadata-failure behaviour at a concrete request
whose remote metadata call answers a 500 with status text
`Internal Server Error`. -/
theorem metadata_failure_500_no_archive_witness :
    handler ⟨⟨true, "OK", "extracted text"⟩, ⟨false, "Internal Server Error", ""⟩⟩
        (fun _ => none) "./completed" (some ⟨"report.pdf", "/tmp/upload", "bytes"⟩)
        "iso" =
      (⟨500, ResponseBody.errorJson "Failed to process document"
          (some "Failed to get metadata: Internal Server Error")⟩,
       [Effect.fetchTika "application/pdf", Effect.fetchMeta "application/pdf"]) := by
  have h := (metadata_failure_500_no_archive
    ⟨⟨true, "OK", "extracted text"⟩, ⟨false, "Internal Server Error", ""⟩⟩
    (fun _ => none) "./completed" ⟨"report.pdf", "/tmp/upload", "bytes"⟩
    "iso" (by decide) (by decide) (by decide)).1
  simpa using h

end DocProc
